import Mathlib

/-!
Shallow embedding of the PDFMerger repository's document-assembly and
stamping engine, translated from `src/pdfjoiner/service.py`,
`src/pdfjoiner/view.py` and `src/pdfjoiner/model.py`.

Real-number quantities (page sizes, font sizes, margins, coordinates) are
embedded as rationals; Python strings are embedded as Lean strings (or
`List Char` where character-level reasoning is needed).  Calls into the
PyMuPDF backend (`fitz.open`, page insertion, text drawing) are embedded
as oracles: an `OpenResult` records whether opening/processing a given
path succeeds and with how many pages, and a `StageOutcome` records the
drawing operations a stamping stage performs together with the exception
it raises, if any.
-/

/-- Outcome of `fitz.open` (`_open_document`, service.py line 20) on a path,
together with the rest of the per-entry processing block: either a document
whose page count is known, or an exception carrying its message. -/
inductive OpenResult where
  | ok (pageCount : Nat)
  | fail (reason : String)
deriving DecidableEq, Repr

/-- Embeds `FileEntry` (model.py lines 21-40) restricted to the fields the
merge engine reads (`filename`, `included`, `is_pdf`), extended with the
backend oracle for the entry's path. -/
structure Entry where
  filename : String
  included : Bool
  isPdf : Bool
  openResult : OpenResult
deriving DecidableEq, Repr

/-- Pages an entry contributes to the output document (service.py lines
277-292): a PDF that opens contributes its native page count via
`insert_pdf`; an image that opens contributes the single page created by
`new_page` + `insert_image`; a failing entry contributes nothing. -/
def entryPages (e : Entry) : Nat :=
  match e.openResult with
  | .ok n => if e.isPdf then n else 1
  | .fail _ => 0

/-- Skip strings an entry appends (service.py lines 293-295): one
`"<filename>: <reason>"` string when the entry's block raises, none
otherwise. -/
def entrySkip (e : Entry) : List String :=
  match e.openResult with
  | .ok _ => []
  | .fail r => [e.filename ++ ": " ++ r]

/-- The assembly loop of `MergeService.merge` (service.py lines 277-295):
folds over the (already filtered) entries, accumulating the output page
count and the skip list.  A failing entry appends its skip string and
continues; a succeeding entry adds its pages. -/
def mergeLoop : List Entry → Nat × List String → Nat × List String
  | [], st => st
  | e :: rest, (pc, sk) =>
    match e.openResult with
    | .ok n => mergeLoop rest (pc + (if e.isPdf then n else 1), sk)
    | .fail r => mergeLoop rest (pc, sk ++ [e.filename ++ ": " ++ r])

/-- `[e for e in entries if e.included]` (service.py line 270). -/
def includedEntries (entries : List Entry) : List Entry :=
  entries.filter (fun e => e.included)

/-- Total pages contributed by a list of entries. -/
def pagesSum (es : List Entry) : Nat :=
  (es.map entryPages).sum

/-- Skip strings contributed by a list of entries, in order. -/
def entryFailures (es : List Entry) : List String :=
  (es.map entrySkip).flatten

/-- Outcome oracle for one stamping stage (`_apply_watermark` or
`_apply_page_numbers`): `ops` are the drawing operations the stage executed
before returning or raising (drawn text persists even if the stage later
raises), `err` is the exception message if the stage raised. -/
structure StageOutcome where
  ops : List String
  err : Option String
deriving DecidableEq, Repr

/-- Warning strings appended for one stage's exception handler
(service.py lines 306-314): one `"<tag>: <reason>"` string on failure,
nothing on success. -/
def stageWarn (tag : String) : Option String → List String
  | none => []
  | some r => [tag ++ ": " ++ r]

/-- One `try: stage(...) except Exception as exc: skipped.append(...)` block
(service.py lines 306-309 and 311-314): the stage's drawing operations are
appended to the document log, and on failure one warning is appended to the
skip list. -/
def applyStage (tag : String) (doc skipped : List String) (o : StageOutcome) :
    List String × List String :=
  match o.err with
  | none => (doc ++ o.ops, skipped)
  | some r => (doc ++ o.ops, skipped ++ [tag ++ ": " ++ r])

/-- The `if options is not None` block of `MergeService.merge` (service.py
lines 305-314): watermark stage first, then page-number stage, each with
its own exception handler. -/
def applyOutputOptions (doc skipped : List String) (wm pn : StageOutcome) :
    List String × List String :=
  let st1 := applyStage "Watermark" doc skipped wm
  applyStage "Page numbers" st1.1 st1.2 pn

/-- Modelled from the spec: `TextAnnotation` (§3 of the spec; its dataclass
in model.py is absent from the provided sources, only its callers in
view.py are).  `rx`/`ry` embed the `x_ratio`/`y_ratio` fields. -/
structure TextAnnotationM where
  page : Nat
  text : String
  rx : ℚ
  ry : ℚ
  font_size : ℚ
deriving DecidableEq, Repr

/-- Modelled from the spec: `OutputOptions` (§3 of the spec; its dataclass
in model.py is absent from the provided sources).  The watermark and
page-number settings are abstracted to their stage outcomes, which is all
`MergeService.merge` observes of them; the annotation collection is kept
explicit. -/
structure OutputOptionsM where
  watermark : StageOutcome
  page_numbers : StageOutcome
  annotations : List TextAnnotationM
deriving DecidableEq, Repr

/-- The two fatal `ValueError`s of `MergeService.merge` (service.py lines
272 and 299-302). -/
inductive MergeError where
  | emptyInput
  | allFailed (skipped : List String)
deriving DecidableEq, Repr

/-- Embeds Python's `"\n".join(lines)`. -/
def joinLines : List String → String
  | [] => ""
  | [s] => s
  | s :: rest => s ++ "\n" ++ joinLines rest

/-- The message carried by each fatal error (service.py lines 272 and
299-302). -/
def errorMessage : MergeError → String
  | .emptyInput => "No files selected for merging."
  | .allFailed skipped =>
    "All files failed to process. No output generated.\n\n" ++ joinLines skipped

/-- Embeds `MergeResult` (service.py lines 151-160). -/
structure MergeResultM where
  page_count : Nat
  skipped : List String
deriving DecidableEq, Repr

/-- Embeds `MergeService.merge` (service.py lines 246-319): filter to the
included entries, fail if none; run the assembly loop; fail if zero pages
were assembled, aggregating the collected skip strings; otherwise apply the
output-option stages (which draw on existing pages and never change the
page count — `TextWriter.write_text` only writes into pages already in the
document) and return the page count and skip list. -/
def mergeModel (entries : List Entry) (options : Option OutputOptionsM) :
    Except MergeError MergeResultM :=
  let included := includedEntries entries
  if included.isEmpty then
    .error .emptyInput
  else
    let st := mergeLoop included (0, [])
    if st.1 = 0 then
      .error (.allFailed st.2)
    else
      match options with
      | none => .ok ⟨st.1, st.2⟩
      | some o => .ok ⟨st.1, (applyOutputOptions [] st.2 o.watermark o.page_numbers).2⟩

/-- Embeds `MergeService.get_page_count` (service.py lines 168-175): the
page count of the opened document, or 1 when opening raises. -/
def get_page_count (r : OpenResult) : Nat :=
  match r with
  | .ok n => n
  | .fail _ => 1

-- ── Helper lemmas ──────────────────────────────────────────────

/-- Closed form of the assembly loop. -/
theorem mergeLoop_eq (es : List Entry) (pc : Nat) (sk : List String) :
    mergeLoop es (pc, sk) = (pc + pagesSum es, sk ++ entryFailures es) := by
  induction es generalizing pc sk with
  | nil => simp [mergeLoop, pagesSum, entryFailures]
  | cons e rest ih =>
    cases h : e.openResult with
    | ok n =>
      simp only [mergeLoop, h, ih, pagesSum, entryFailures, List.map_cons,
        List.sum_cons, List.flatten_cons, entryPages, entrySkip]
      simp [Prod.ext_iff, Nat.add_assoc]
    | fail r =>
      simp only [mergeLoop, h, ih, pagesSum, entryFailures, List.map_cons,
        List.sum_cons, List.flatten_cons, entryPages, entrySkip]
      simp [Prod.ext_iff, List.append_assoc]

/-- Filtering to included entries is idempotent. -/
theorem includedEntries_idem (entries : List Entry) :
    includedEntries (includedEntries entries) = includedEntries entries := by
  simp [includedEntries, List.filter_filter]

/-- Closed form of the output-option stage block. -/
theorem applyOutputOptions_eq (doc skipped : List String) (wm pn : StageOutcome) :
    applyOutputOptions doc skipped wm pn =
      (doc ++ wm.ops ++ pn.ops,
       skipped ++ stageWarn "Watermark" wm.err ++ stageWarn "Page numbers" pn.err) := by
  cases hw : wm.err <;> cases hp : pn.err <;>
    simp [applyOutputOptions, applyStage, stageWarn, hw, hp]

/-- String append acts as list append on the underlying character data. -/
theorem string_data_append (a b : String) : (a ++ b).data = a.data ++ b.data := rfl

/-- Every string of the list is an infix of its newline join. -/
theorem joinLines_mem_substr (s : String) (l : List String) (h : s ∈ l) :
    s.data <:+: (joinLines l).data := by
  induction l with
  | nil => cases h
  | cons a rest ih =>
    cases rest with
    | nil =>
      have hs : s = a := by simpa using h
      subst hs
      exact List.infix_rfl
    | cons b rest' =>
      rcases List.mem_cons.mp h with hs | hs
      · subst hs
        show s.data <:+: (s ++ "\n" ++ joinLines (b :: rest')).data
        rw [string_data_append, string_data_append]
        exact ((List.prefix_append s.data _).trans (List.prefix_append _ _)).isInfix
      · have h1 : s.data <:+: (joinLines (b :: rest')).data := ih hs
        show s.data <:+: (a ++ "\n" ++ joinLines (b :: rest')).data
        rw [string_data_append]
        exact h1.trans (List.suffix_append _ _).isInfix

-- ── Claim theorems: merge pipeline ─────────────────────────────

/-- C10: `MergeService.get_page_count` is total by construction and never
raises: on a path that opens it returns the document's page count, on a
path that cannot be opened it returns 1, so an unopenable file is
indistinguishable from a one-page document at this interface. -/
theorem get_page_count_total :
    ∀ (n : Nat) (s : String),
      get_page_count (.ok n) = n ∧
      get_page_count (.fail s) = 1 ∧
      get_page_count (.fail s) = get_page_count (.ok 1) :=
  fun _ _ => ⟨rfl, rfl, rfl⟩

/-- C2: `MergeService.merge` raises the empty-input `ValueError` exactly
when no entry in the input list is marked included — and therefore, when at
least one entry is included, this error is not raised. -/
theorem merge_empty_input_iff :
    ∀ (entries : List Entry) (options : Option OutputOptionsM),
      mergeModel entries options = .error .emptyInput ↔
        ∀ e ∈ entries, e.included = false := by
  intro entries options
  have hfilter : includedEntries entries = [] ↔ ∀ e ∈ entries, e.included = false := by
    simp [includedEntries, List.filter_eq_nil_iff]
  by_cases hinc : (includedEntries entries).isEmpty = true
  · have h0 : includedEntries entries = [] := by simpa [List.isEmpty_iff] using hinc
    simp only [mergeModel, if_pos hinc]
    exact ⟨fun _ => hfilter.mp h0, fun _ => trivial⟩
  · have h0 : ¬ includedEntries entries = [] := by
      simpa [List.isEmpty_iff] using hinc
    constructor
    · intro h
      exfalso
      simp only [mergeModel, if_neg hinc] at h
      split at h
      · simp at h
      · cases options <;> simp at h
    · intro hall
      exact absurd (hfilter.mpr hall) h0

/-- C1: a successful merge's `page_count` is the sum, over the included
entries that opened successfully and in input order, of each entry's
contribution (a PDF its native page count, an image exactly one page);
entries with `included == false` contribute nothing — the result only
depends on the included sublist — and each included entry that fails
contributes exactly one `"<filename>: <reason>"` string to `skipped` (the
per-entry failure strings form the initial segment of `skipped`, and are
all of it when no output options are given) without aborting the loop. -/
theorem merge_page_accounting :
    ∀ (entries : List Entry) (options : Option OutputOptionsM) (r : MergeResultM),
      mergeModel entries options = .ok r →
      r.page_count = pagesSum (includedEntries entries) ∧
      entryFailures (includedEntries entries) <+: r.skipped ∧
      (options = none → r.skipped = entryFailures (includedEntries entries)) ∧
      mergeModel entries options = mergeModel (includedEntries entries) options := by
  intro entries options r h
  have hself : mergeModel entries options = mergeModel (includedEntries entries) options := by
    simp only [mergeModel, includedEntries_idem]
  simp only [mergeModel] at h
  by_cases hinc : (includedEntries entries).isEmpty = true
  · rw [if_pos hinc] at h
    simp at h
  · rw [if_neg hinc, mergeLoop_eq] at h
    simp only [Nat.zero_add, List.nil_append] at h
    by_cases hz : pagesSum (includedEntries entries) = 0
    · rw [if_pos hz] at h
      simp at h
    · rw [if_neg hz] at h
      cases options with
      | none =>
        have hr : (⟨pagesSum (includedEntries entries),
            entryFailures (includedEntries entries)⟩ : MergeResultM) = r := by
          simpa using h
        subst hr
        exact ⟨rfl, List.prefix_refl _, fun _ => rfl, hself⟩
      | some o =>
        have hr : (⟨pagesSum (includedEntries entries),
            entryFailures (includedEntries entries) ++ stageWarn "Watermark" o.watermark.err ++
              stageWarn "Page numbers" o.page_numbers.err⟩ : MergeResultM) = r := by
          simpa [applyOutputOptions_eq] using h
        subst hr
        refine ⟨rfl, ?_, by simp, hself⟩
        exact (List.prefix_append _ _).trans (List.prefix_append _ _)

/-- C1 witness: a concrete merge of a 2-page PDF, an image, a failing
entry, and an excluded entry. -/
theorem merge_page_accounting_witness :
    (⟨3, ["c.pdf: boom"]⟩ : MergeResultM).page_count =
      pagesSum (includedEntries
        [⟨"a.pdf", true, true, .ok 2⟩, ⟨"b.png", true, false, .ok 1⟩,
         ⟨"c.pdf", true, true, .fail "boom"⟩, ⟨"d.pdf", false, true, .ok 9⟩]) ∧
    entryFailures (includedEntries
        [⟨"a.pdf", true, true, .ok 2⟩, ⟨"b.png", true, false, .ok 1⟩,
         ⟨"c.pdf", true, true, .fail "boom"⟩, ⟨"d.pdf", false, true, .ok 9⟩]) <+:
      (⟨3, ["c.pdf: boom"]⟩ : MergeResultM).skipped ∧
    ((none : Option OutputOptionsM) = none →
      (⟨3, ["c.pdf: boom"]⟩ : MergeResultM).skipped =
        entryFailures (includedEntries
          [⟨"a.pdf", true, true, .ok 2⟩, ⟨"b.png", true, false, .ok 1⟩,
           ⟨"c.pdf", true, true, .fail "boom"⟩, ⟨"d.pdf", false, true, .ok 9⟩])) ∧
    mergeModel
        [⟨"a.pdf", true, true, .ok 2⟩, ⟨"b.png", true, false, .ok 1⟩,
         ⟨"c.pdf", true, true, .fail "boom"⟩, ⟨"d.pdf", false, true, .ok 9⟩] none =
      mergeModel (includedEntries
        [⟨"a.pdf", true, true, .ok 2⟩, ⟨"b.png", true, false, .ok 1⟩,
         ⟨"c.pdf", true, true, .fail "boom"⟩, ⟨"d.pdf", false, true, .ok 9⟩]) none :=
  merge_page_accounting
    [⟨"a.pdf", true, true, .ok 2⟩, ⟨"b.png", true, false, .ok 1⟩,
     ⟨"c.pdf", true, true, .fail "boom"⟩, ⟨"d.pdf", false, true, .ok 9⟩]
    none ⟨3, ["c.pdf: boom"]⟩ (by rfl)


/-- Helper: a successful merge's page count is the assembled page sum. -/
theorem mergeModel_ok_page_count (entries : List Entry) (options : Option OutputOptionsM)
    (r : MergeResultM) (h : mergeModel entries options = .ok r) :
    r.page_count = pagesSum (includedEntries entries) := by
  simp only [mergeModel] at h
  by_cases hinc : (includedEntries entries).isEmpty = true
  · rw [if_pos hinc] at h
    simp at h
  · rw [if_neg hinc, mergeLoop_eq] at h
    simp only [Nat.zero_add, List.nil_append] at h
    by_cases hz : pagesSum (includedEntries entries) = 0
    · rw [if_pos hz] at h
      simp at h
    · rw [if_neg hz] at h
      cases options with
      | none =>
        have hr : (⟨pagesSum (includedEntries entries),
            entryFailures (includedEntries entries)⟩ : MergeResultM) = r := by
          simpa using h
        subst hr
        rfl
      | some o =>
        have hr : (⟨pagesSum (includedEntries entries),
            (applyOutputOptions [] (entryFailures (includedEntries entries))
              o.watermark o.page_numbers).2⟩ : MergeResultM) = r := by
          simpa using h
        subst hr
        rfl

/-- Helper: when at least one entry is included but zero pages were
assembled, the merge fails with the aggregate error carrying the collected
skip strings. -/
theorem mergeModel_all_failed (entries : List Entry) (options : Option OutputOptionsM)
    (hne : includedEntries entries ≠ []) (hz : pagesSum (includedEntries entries) = 0) :
    mergeModel entries options =
      .error (.allFailed (entryFailures (includedEntries entries))) := by
  have hinc : (includedEntries entries).isEmpty = false := by
    simpa [List.isEmpty_iff] using hne
  simp only [mergeModel, hinc, Bool.false_eq_true, if_false, mergeLoop_eq,
    Nat.zero_add, List.nil_append]
  rw [if_pos hz]

/-- Helper: each collected skip string occurs inside the aggregate error
message. -/
theorem mem_skipped_infix_message (s : String) (l : List String) (h : s ∈ l) :
    s.data <:+: (errorMessage (.allFailed l)).data := by
  show s.data <:+:
    ("All files failed to process. No output generated.\n\n" ++ joinLines l).data
  rw [string_data_append]
  exact (joinLines_mem_substr s l h).trans (List.suffix_append _ _).isInfix

/-- C3: a successful merge never returns `page_count == 0` — and when the
assembled document has zero pages (with at least one included entry, so the
empty-input error did not fire), `merge` aborts with the aggregate fatal
error whose payload is exactly the per-entry failure strings collected so
far and whose message contains every one of those strings. -/
theorem merge_zero_pages_fatal :
    ∀ (entries : List Entry) (options : Option OutputOptionsM),
      (∀ r : MergeResultM, mergeModel entries options = .ok r → 0 < r.page_count) ∧
      (includedEntries entries ≠ [] → pagesSum (includedEntries entries) = 0 →
        mergeModel entries options =
          .error (.allFailed (entryFailures (includedEntries entries))) ∧
        ∀ s ∈ entryFailures (includedEntries entries),
          s.data <:+:
            (errorMessage (.allFailed (entryFailures (includedEntries entries)))).data) := by
  intro entries options
  constructor
  · intro r h
    have hpc := mergeModel_ok_page_count entries options r h
    have hz : ¬ pagesSum (includedEntries entries) = 0 := by
      intro hz0
      by_cases hne : includedEntries entries = []
      · rw [mergeModel] at h
        rw [if_pos (by simpa [List.isEmpty_iff] using hne)] at h
        simp at h
      · rw [mergeModel_all_failed entries options hne hz0] at h
        simp at h
    omega
  · intro hne hz
    exact ⟨mergeModel_all_failed entries options hne hz,
      fun s hs => mem_skipped_infix_message s _ hs⟩

/-- C3 witness: a concrete successful merge and a concrete all-failed
merge. -/
theorem merge_zero_pages_fatal_witness :
    0 < (⟨2, ([] : List String)⟩ : MergeResultM).page_count ∧
    (mergeModel [⟨"a.pdf", true, true, .fail "x"⟩] none =
        .error (.allFailed
          (entryFailures (includedEntries [⟨"a.pdf", true, true, .fail "x"⟩]))) ∧
      ∀ s ∈ entryFailures (includedEntries [⟨"a.pdf", true, true, .fail "x"⟩]),
        s.data <:+:
          (errorMessage (.allFailed
            (entryFailures (includedEntries [⟨"a.pdf", true, true, .fail "x"⟩])))).data) :=
  ⟨(merge_zero_pages_fatal [⟨"a.pdf", true, true, .ok 2⟩] none).1 ⟨2, []⟩ (by rfl),
   (merge_zero_pages_fatal [⟨"a.pdf", true, true, .fail "x"⟩] none).2
     (by decide) (by rfl)⟩

/-- C7: the watermark stage runs before the page-number stage (its drawing
operations precede the page-number operations in the document, and drawn
pages are never undone); each stage's exception is caught once and reported
as a single `"Watermark: <reason>"` / `"Page numbers: <reason>"` string; a
failure in one stage neither prevents the other stage nor aborts the
pipeline: the merge succeeds exactly as without options, with the same page
count and the stage warnings appended. -/
theorem stamping_stage_isolation :
    ∀ (doc skipped : List String) (wm pn : StageOutcome)
      (entries : List Entry) (anns : List TextAnnotationM),
      applyOutputOptions doc skipped wm pn =
        (doc ++ wm.ops ++ pn.ops,
         skipped ++ stageWarn "Watermark" wm.err ++ stageWarn "Page numbers" pn.err) ∧
      mergeModel entries (some ⟨wm, pn, anns⟩) =
        (mergeModel entries none).map
          (fun r => ⟨r.page_count,
            r.skipped ++ stageWarn "Watermark" wm.err ++
              stageWarn "Page numbers" pn.err⟩) := by
  intro doc skipped wm pn entries anns
  refine ⟨applyOutputOptions_eq doc skipped wm pn, ?_⟩
  simp only [mergeModel]
  by_cases hinc : (includedEntries entries).isEmpty = true
  · rw [if_pos hinc, if_pos hinc]
    rfl
  · rw [if_neg hinc, if_neg hinc]
    by_cases hz : (mergeLoop (includedEntries entries) (0, [])).1 = 0
    · rw [if_pos hz, if_pos hz]
      rfl
    · rw [if_neg hz, if_neg hz]
      simp [applyOutputOptions_eq, Except.map]

/-- C8: the merge pipeline never renders the annotations carried in the
output options — its result is independent of the annotation collection,
and a concrete merge given one annotation produces the same output as if
none were given (the specified annotation-rendering step is absent from
`MergeService.merge`). -/
theorem merge_ignores_annotations :
    ∀ (entries : List Entry) (wm pn : StageOutcome)
      (anns anns' : List TextAnnotationM),
      mergeModel entries (some ⟨wm, pn, anns⟩) =
        mergeModel entries (some ⟨wm, pn, anns'⟩) ∧
      mergeModel [⟨"doc.pdf", true, true, .ok 1⟩]
          (some ⟨⟨[], none⟩, ⟨[], none⟩, [⟨0, "Hello", 1/2, 1/2, 12⟩]⟩) =
        .ok ⟨1, []⟩ :=
  fun _ _ _ _ _ => ⟨rfl, rfl⟩

-- ── Stamping geometry (service.py lines 51-109) ────────────────

/-- Occurrence scan for `containsSub`: does `needle` occur as a contiguous
run in the list? -/
def containsSub (needle : List Char) : List Char → Bool
  | [] => needle.isEmpty
  | c :: cs => needle.isPrefixOf (c :: cs) || containsSub needle cs

/-- Embeds Python's `needle in hay` substring test on strings. -/
def strContains (needle hay : String) : Bool :=
  containsSub needle.data hay.data

/-- `_REF_PAGE_HEIGHT` (service.py line 56). -/
def refPageHeight : ℚ := 842

/-- `_scale_for_page` (service.py lines 59-61). -/
def scaleForPage (h : ℚ) : ℚ := h / refPageHeight

/-- Embeds `PageNumberOptions` restricted to the fields `_apply_page_numbers`
reads (the dataclass itself is absent from the provided model.py; fields and
their meaning are taken from service.py lines 71-109 and the dialog that
builds them, view.py lines 1242-1251). -/
structure PageNumberOptionsM where
  enabled : Bool
  format : String
  start : Nat
  font_size : ℚ
  margin : ℚ
  position : String
  color : ℚ × ℚ × ℚ
deriving DecidableEq, Repr

/-- Embeds `WatermarkOptions` restricted to the fields `_apply_watermark`
reads (service.py lines 112-145, view.py lines 1252-1260). -/
structure WatermarkOptionsM where
  enabled : Bool
  text : String
  font_size : ℚ
  angle : ℚ
  opacity : ℚ
  color : ℚ × ℚ × ℚ
deriving DecidableEq, Repr

/-- Scaled page-number font size, `opts.font_size * scale` (service.py
line 83). -/
def pnFontSize (opts : PageNumberOptionsM) (h : ℚ) : ℚ :=
  opts.font_size * scaleForPage h

/-- Scaled page-number margin, `opts.margin * scale` (service.py line 84). -/
def pnMargin (opts : PageNumberOptionsM) (h : ℚ) : ℚ :=
  opts.margin * scaleForPage h

/-- Scaled watermark font size, `opts.font_size * scale` (service.py
line 129). -/
def wmFontSize (opts : WatermarkOptionsM) (h : ℚ) : ℚ :=
  opts.font_size * scaleForPage h

/-- The page-number draw coordinates for one page (service.py lines 81-105):
vertical and horizontal anchors from the position string, then the final
clamps `x = max(0, min(x, w - tw))`, `y = max(font_size, min(y, h))`.
`tw` is the backend's measured text width (`font.text_length`). -/
def pageNumberXY (opts : PageNumberOptionsM) (w h tw : ℚ) : ℚ × ℚ :=
  let fs := pnFontSize opts h
  let m := pnMargin opts h
  let y0 := if strContains "bottom" opts.position then h - m else m + fs
  let x0 :=
    if strContains "left" opts.position then m
    else if strContains "right" opts.position then w - m - tw
    else (w - tw) / 2
  (max 0 (min x0 (w - tw)), max fs (min y0 h))

/-- Embeds `AnnotatedPageWidget.mouseMoveEvent` dragging a selected
annotation (view.py lines 614-627): when the rendered pixmap has positive
dimensions, both ratios are reassigned to the clamped target
`max(0.0, min(1.0, (pos - drag_offset) / pixmap_dim))`; otherwise the
annotation is left untouched. -/
def clamp01 (q : ℚ) : ℚ := max 0 (min 1 q)

/-- The move operation itself (view.py lines 620-626); `px py` is the mouse
position, `ox oy` the drag offsets, `pw ph` the pixmap dimensions. -/
def moveAnnotationM (a : TextAnnotationM) (px py ox oy pw ph : ℚ) : TextAnnotationM :=
  if 0 < pw ∧ 0 < ph then
    { a with rx := clamp01 ((px - ox) / pw), ry := clamp01 ((py - oy) / ph) }
  else a

-- ── Claim theorems: geometry ───────────────────────────────────

/-- C6: both stamping operations scale their size and margin parameters by
`actualPageHeight / 842`, so the effective watermark font size, page-number
font size and page-number margin are homogeneous in the page height:
doubling the page height exactly doubles each of them. -/
theorem stamp_scaling_linear :
    ∀ (pno : PageNumberOptionsM) (wmo : WatermarkOptionsM) (h : ℚ),
      wmFontSize wmo (2 * h) = 2 * wmFontSize wmo h ∧
      pnFontSize pno (2 * h) = 2 * pnFontSize pno h ∧
      pnMargin pno (2 * h) = 2 * pnMargin pno h ∧
      scaleForPage (2 * h) = 2 * scaleForPage h := by
  intro pno wmo h
  simp only [wmFontSize, pnFontSize, pnMargin, scaleForPage]
  refine ⟨?_, ?_, ?_, ?_⟩ <;> ring

/-- C5 counterexample: with position `"top-left"`, margin 0, font size 10
on an A4-height page, the computed x coordinate is 0, violating the
claimed lower bound `2 <= x` (the code clamps to `[0, w - tw]`, with no
2-point padding). -/
theorem page_number_clamp_claim_cex :
    ¬ (2 ≤ (pageNumberXY ⟨true, "{n}", 1, 10, 0, "top-left", (0, 0, 0)⟩
        595 842 50).1) := by
  have hb : strContains "bottom" "top-left" = false := by decide
  have hl : strContains "left" "top-left" = true := by decide
  simp only [pageNumberXY, pnMargin, pnFontSize, scaleForPage, refPageHeight, hb, hl,
    Bool.false_eq_true, if_false, if_true]
  rw [show (0 : ℚ) * (842 / 842) = 0 by norm_num,
    min_eq_left (by norm_num : (0 : ℚ) ≤ 595 - 50), max_self]
  norm_num

/-- C5 amended: the clamped coordinates always satisfy
`0 <= x <= max(0, pageWidth - textWidth)` and
`scaledFontSize <= y <= max(scaledFontSize, pageHeight)` — the code's clamp
intervals are `[0, w - tw]` and `[fontSize, h]` (degenerating to the lower
bound when textWidth exceeds the page width or the font size exceeds the
page height), not the 2-point-padded intervals of the claim. -/
theorem page_number_clamp_bounds :
    ∀ (opts : PageNumberOptionsM) (w h tw : ℚ),
      0 ≤ (pageNumberXY opts w h tw).1 ∧
      (pageNumberXY opts w h tw).1 ≤ max 0 (w - tw) ∧
      pnFontSize opts h ≤ (pageNumberXY opts w h tw).2 ∧
      (pageNumberXY opts w h tw).2 ≤ max (pnFontSize opts h) h := by
  intro opts w h tw
  simp only [pageNumberXY]
  refine ⟨le_max_left _ _, ?_, le_max_left _ _, ?_⟩
  · exact max_le_max (le_refl 0) (min_le_right _ _)
  · exact max_le_max (le_refl _) (min_le_right _ _)

/-- C9: starting from an annotation whose ratios are in `[0, 1]` (as they
are at creation, view.py lines 601-602), after any move operation — for any
target position and drag offset, of any magnitude or sign — both ratios lie
in `[0, 1]`: in-range targets are assigned clamped, and a degenerate pixmap
leaves the annotation unchanged. -/
theorem annotation_move_clamped :
    ∀ (a : TextAnnotationM) (px py ox oy pw ph : ℚ),
      0 ≤ a.rx → a.rx ≤ 1 → 0 ≤ a.ry → a.ry ≤ 1 →
      0 ≤ (moveAnnotationM a px py ox oy pw ph).rx ∧
      (moveAnnotationM a px py ox oy pw ph).rx ≤ 1 ∧
      0 ≤ (moveAnnotationM a px py ox oy pw ph).ry ∧
      (moveAnnotationM a px py ox oy pw ph).ry ≤ 1 := by
  intro a px py ox oy pw ph h0 h1 h2 h3
  have hc : ∀ q : ℚ, 0 ≤ clamp01 q ∧ clamp01 q ≤ 1 := fun q =>
    ⟨le_max_left _ _, max_le (by norm_num) (min_le_left _ _)⟩
  unfold moveAnnotationM
  split
  · exact ⟨(hc _).1, (hc _).2, (hc _).1, (hc _).2⟩
  · exact ⟨h0, h1, h2, h3⟩

/-- C9 witness: a concrete drag far outside the page clamps back into
`[0, 1]`. -/
theorem annotation_move_clamped_witness :
    0 ≤ (moveAnnotationM ⟨0, "note", 1/2, 1/2, 12⟩ 1000 (-50) 3 4 200 100).rx ∧
    (moveAnnotationM ⟨0, "note", 1/2, 1/2, 12⟩ 1000 (-50) 3 4 200 100).rx ≤ 1 ∧
    0 ≤ (moveAnnotationM ⟨0, "note", 1/2, 1/2, 12⟩ 1000 (-50) 3 4 200 100).ry ∧
    (moveAnnotationM ⟨0, "note", 1/2, 1/2, 12⟩ 1000 (-50) 3 4 200 100).ry ≤ 1 :=
  annotation_move_clamped ⟨0, "note", 1/2, 1/2, 12⟩ 1000 (-50) 3 4 200 100
    (by norm_num) (by norm_num) (by norm_num) (by norm_num)

-- ── Page-number text formatting (service.py lines 74-79) ───────

/-- Embeds Python's `s.replace(old, new)` for the non-empty patterns used
here (`"{n}"`, `"{total}"`): scan left to right, replace each
non-overlapping occurrence, continue after the replacement (the inserted
text is not rescanned).  (For an empty pattern Python would intersperse
`rep`; that case is unreachable at the call sites and maps to the identity
here.) -/
def replaceAll (pat rep s : List Char) : List Char :=
  match pat, s with
  | _, [] => []
  | [], s => s
  | p :: ps, c :: cs =>
    if (p :: ps).isPrefixOf (c :: cs) then
      rep ++ replaceAll (p :: ps) rep (cs.drop ps.length)
    else
      c :: replaceAll (p :: ps) rep cs
termination_by s.length
decreasing_by
  · simp only [List.length_cons, List.length_drop]
    omega
  · simp only [List.length_cons]
    omega

/-- Embeds Python's `str(number)` for a natural number: decimal digits,
most significant first. -/
def natRepr (n : Nat) : List Char :=
  if n < 10 then [Nat.digitChar n]
  else natRepr (n / 10) ++ [Nat.digitChar (n % 10)]
termination_by n
decreasing_by
  exact Nat.div_lt_self (by omega) (by omega)

/-- The stamped text for 0-based page index `i` of `total` pages
(service.py lines 78-79):
`opts.format.replace("{n}", str(opts.start + i)).replace("{total}", str(total))`. -/
def pageNumberText (fmt : String) (start i total : Nat) : List Char :=
  replaceAll "{total}".data (natRepr total)
    (replaceAll "{n}".data (natRepr (start + i)) fmt.data)

/-- Replacing in the empty string yields the empty string. -/
theorem replaceAll_nil (pat rep : List Char) : replaceAll pat rep [] = [] := by
  cases pat <;> simp [replaceAll]

/-- A match at the head is replaced and scanning continues after it. -/
theorem replaceAll_match (p : Char) (ps rep rest : List Char) :
    replaceAll (p :: ps) rep ((p :: ps) ++ rest) =
      rep ++ replaceAll (p :: ps) rep rest := by
  have hpre : (p :: ps).isPrefixOf (p :: (ps ++ rest)) = true := by
    rw [List.isPrefixOf_iff_prefix]
    exact List.prefix_append _ _
  rw [List.cons_append, replaceAll, if_pos hpre, List.drop_left]

/-- A non-match at the head is kept and scanning moves one character. -/
theorem replaceAll_skip (p : Char) (ps rep : List Char) (c : Char) (cs : List Char)
    (h : (p :: ps).isPrefixOf (c :: cs) = false) :
    replaceAll (p :: ps) rep (c :: cs) = c :: replaceAll (p :: ps) rep cs := by
  rw [replaceAll, if_neg (by simp [h])]

/-- Replacing the pattern by itself. -/
theorem replaceAll_self (p : Char) (ps rep : List Char) :
    replaceAll (p :: ps) rep (p :: ps) = rep := by
  have h := replaceAll_match p ps rep []
  simpa [replaceAll_nil] using h

/-- A string without an occurrence of the pattern is left unchanged. -/
theorem replaceAll_no_occur (p : Char) (ps rep : List Char) :
    ∀ s, containsSub (p :: ps) s = false → replaceAll (p :: ps) rep s = s := by
  intro s
  induction s with
  | nil => intro _; exact replaceAll_nil _ _
  | cons c cs ih =>
    intro h
    simp only [containsSub, Bool.or_eq_false_iff] at h
    rw [replaceAll_skip p ps rep c cs h.1, ih h.2]

/-- Scanning passes over a block that never contains the pattern's first
character. -/
theorem replaceAll_append_of_no_head (p : Char) (ps rep : List Char) :
    ∀ (l s : List Char), (∀ c ∈ l, c ≠ p) →
      replaceAll (p :: ps) rep (l ++ s) = l ++ replaceAll (p :: ps) rep s := by
  intro l
  induction l with
  | nil => intro s _; simp
  | cons c l' ih =>
    intro s h
    have hc : c ≠ p := h c (List.mem_cons_self _ _)
    have hbeq : (p == c) = false := beq_eq_false_iff_ne.mpr (fun hpc => hc hpc.symm)
    have hpre : (p :: ps).isPrefixOf (c :: (l' ++ s)) = false := by
      simp [List.isPrefixOf, hbeq]
    rw [List.cons_append, replaceAll_skip p ps rep c (l' ++ s) hpre,
      ih s (fun d hd => h d (List.mem_cons_of_mem _ hd)), List.cons_append]

/-- Every digit character for digits below ten is a digit. -/
theorem digitChar_isDigit : ∀ d : Nat, d < 10 → (Nat.digitChar d).isDigit = true := by
  decide

/-- Every character of a decimal rendering is a digit. -/
theorem natRepr_digits (n : Nat) : ∀ c ∈ natRepr n, c.isDigit = true := by
  induction n using Nat.strong_induction_on with
  | _ n ih =>
    rw [natRepr]
    by_cases h : n < 10
    · rw [if_pos h]
      intro c hc
      have hcd : c = Nat.digitChar n := by simpa using hc
      subst hcd
      exact digitChar_isDigit n h
    · rw [if_neg h]
      intro c hc
      rcases List.mem_append.mp hc with h1 | h2
      · exact ih (n / 10) (Nat.div_lt_self (by omega) (by omega)) c h1
      · have hcd : c = Nat.digitChar (n % 10) := by simpa using h2
        subst hcd
        exact digitChar_isDigit (n % 10) (Nat.mod_lt _ (by omega))

/-- No character of a decimal rendering is an opening brace. -/
theorem natRepr_ne_brace (m : Nat) : ∀ c ∈ natRepr m, c ≠ '{' := by
  intro c hc heq
  have h := natRepr_digits m c hc
  rw [heq] at h
  exact absurd h (by decide)

/-- Closed form of the stamped text for the default format string. -/
theorem pageNumberText_closed (start i total : Nat) :
    pageNumberText "{n} / {total}" start i total =
      natRepr (start + i) ++ " / ".data ++ natRepr total := by
  simp only [pageNumberText]
  have hdata : "{n} / {total}".data = "{n}".data ++ (" / ".data ++ "{total}".data) := rfl
  have hpatN : "{n}".data = '{' :: ['n', '}'] := rfl
  have hpatT : "{total}".data = '{' :: ['t', 'o', 't', 'a', 'l', '}'] := rfl
  have hin : replaceAll "{n}".data (natRepr (start + i)) "{n} / {total}".data
      = natRepr (start + i) ++ (" / ".data ++ "{total}".data) := by
    rw [hdata, hpatN, replaceAll_match,
      replaceAll_no_occur '{' ['n', '}'] (natRepr (start + i)) _ (by decide)]
  rw [hin, hpatT,
    replaceAll_append_of_no_head '{' ['t', 'o', 't', 'a', 'l', '}'] (natRepr total)
      (natRepr (start + i)) _ (natRepr_ne_brace _),
    replaceAll_append_of_no_head '{' ['t', 'o', 't', 'a', 'l', '}'] (natRepr total)
      (" / ".data) _ (by decide), replaceAll_self, List.append_assoc]

/-- C4: the stamped page-number text is the format string with every
`{n}` occurrence replaced by the decimal rendering of `start + i` and every
`{total}` occurrence replaced by the total — for the default format
`"{n} / {total}"` the text on page `i` with `start = 1` is
`"(i+1) / total"`, and with `start = 5`, `total = 3` the three texts are
`"5 / 3"`, `"6 / 3"`, `"7 / 3"`. -/
theorem page_number_text_format :
    (∀ start i total : Nat,
      pageNumberText "{n} / {total}" start i total =
        natRepr (start + i) ++ " / ".data ++ natRepr total) ∧
    pageNumberText "{n} / {total}" 5 0 3 = "5 / 3".data ∧
    pageNumberText "{n} / {total}" 5 1 3 = "6 / 3".data ∧
    pageNumberText "{n} / {total}" 5 2 3 = "7 / 3".data ∧
    (∀ i total : Nat,
      pageNumberText "{n} / {total}" 1 i total =
        natRepr (i + 1) ++ " / ".data ++ natRepr total) := by
  have h5 : natRepr 5 = ['5'] := by rw [natRepr, if_pos (by norm_num)]; decide
  have h6 : natRepr 6 = ['6'] := by rw [natRepr, if_pos (by norm_num)]; decide
  have h7 : natRepr 7 = ['7'] := by rw [natRepr, if_pos (by norm_num)]; decide
  have h3 : natRepr 3 = ['3'] := by rw [natRepr, if_pos (by norm_num)]; decide
  refine ⟨pageNumberText_closed, ?_, ?_, ?_, fun i total => ?_⟩
  · rw [pageNumberText_closed, show (5 + 0 : Nat) = 5 from rfl, h5, h3]
    rfl
  · rw [pageNumberText_closed, show (5 + 1 : Nat) = 6 from rfl, h6, h3]
    rfl
  · rw [pageNumberText_closed, show (5 + 2 : Nat) = 7 from rfl, h7, h3]
    rfl
  · rw [pageNumberText_closed, Nat.add_comm]
